import Mathlib

/-!
Verification of `src/tools/generate_ruleset.py`.

The script reads `forbidden-extensions.txt`, strips each line, drops blank
lines and lines whose stripped form starts with `#`, prefixes every retained
token with `*.`, embeds the resulting pattern list twice into a fixed GitHub
ruleset mapping, and prints the YAML serialization (with `sort_keys=False`)
to standard output.

The embedding below translates each step of the script into a Lean
definition: `pyStrip` models Python `str.strip()`, `pyReadlines` models
`f.readlines()`, `stepLine`/`patternsOf` model the filter loop, `Yaml` and
`rulesetDoc` model the nested dict literal, `dumpEntries`/`dumpItems` model
the block-style YAML emitter used via `yaml.dump(..., sort_keys=False)`, and
`runScript` models the whole process (input file available or not).
-/

namespace RulesetGen

/-- Whitespace characters removed by Python `str.strip()` with no argument,
restricted to the ASCII range (the inputs of interest are ASCII text). -/
def isPySpace (c : Char) : Bool :=
  c == ' ' || c == '\t' || c == '\n' || c == '\r' || c == '\x0b' || c == '\x0c'

/-- Drop leading and trailing `isPySpace` characters from a character list. -/
def stripChars (l : List Char) : List Char :=
  ((l.dropWhile isPySpace).reverse.dropWhile isPySpace).reverse

/-- Model of Python `line.strip()` (line 12 of the script). -/
def pyStrip (s : String) : String :=
  String.mk (stripChars s.data)

/-- Model of Python `line.startswith("#")` (line 15 of the script):
true exactly when the first character is `#`. -/
def startsWithHash (s : String) : Bool :=
  s.data.head? == some '#'

/-- Split a character stream into lines the way Python `f.readlines()` does:
each line keeps its trailing newline; a final fragment without a newline is
kept as a last line; the empty stream yields no lines. -/
def splitKeep : List Char → List Char → List (List Char)
  | [], [] => []
  | [], acc => [acc.reverse]
  | c :: rest, acc =>
    if c = '\n' then (acc.reverse ++ ['\n']) :: splitKeep rest []
    else splitKeep rest (c :: acc)

/-- Model of `f.readlines()` (line 7 of the script) on the file content. -/
def pyReadlines (s : String) : List String :=
  (splitKeep s.data []).map String.mk

/-- The body of the filter loop (lines 11-20 of the script): strip the line,
skip it when blank or a comment, otherwise append the `*.`-prefixed pattern
to the accumulator. -/
def stepLine (acc : List String) (line : String) : List String :=
  let l := pyStrip line
  if l == "" || startsWithHash l then acc else acc ++ ["*." ++ l]

/-- The `patterns` list built by the loop (lines 9-20 of the script). -/
def patternsOf (lines : List String) : List String :=
  lines.foldl stepLine []

/-- True when a stripped token passes the loop's test. -/
def keepToken (t : String) : Bool :=
  !(t == "" || startsWithHash t)

/-- True when the loop retains the line (does not `continue`). -/
def keepLine (line : String) : Bool :=
  keepToken (pyStrip line)

/-- The stripped retained tokens, in input order. -/
def retainedOf (lines : List String) : List String :=
  (lines.map pyStrip).filter keepToken

mutual

/-- YAML-like document values: scalars, sequences and mappings; a mapping
records its keys in insertion order exactly as a Python `dict` does. -/
inductive Yaml where
  | str : String → Yaml
  | seq : YamlSeq → Yaml
  | map : YamlMap → Yaml

/-- The items of a sequence node, in order. -/
inductive YamlSeq where
  | nil : YamlSeq
  | cons : Yaml → YamlSeq → YamlSeq

/-- The entries of a mapping node, in insertion order. -/
inductive YamlMap where
  | nil : YamlMap
  | cons : String → Yaml → YamlMap → YamlMap

end

/-- Build a sequence node's items from a list. -/
def seqOfList : List Yaml → YamlSeq
  | [] => .nil
  | y :: ys => .cons y (seqOfList ys)

/-- Build a mapping node's entries from an insertion-ordered list. -/
def mapOfList : List (String × Yaml) → YamlMap
  | [] => .nil
  | (k, v) :: rest => .cons k v (mapOfList rest)

/-- The `ruleset` dict literal of the script (lines 23-37), with the
`patterns` list injected in its two places. -/
def rulesetDoc (patterns : List String) : Yaml :=
  .map (mapOfList [
    ("name", .str "Block Forbidden File Types"),
    ("target", .str "push"),
    ("enforcement", .str "active"),
    ("conditions", .map (mapOfList [
      ("file_paths", .map (mapOfList [
        ("included", .seq (seqOfList (patterns.map .str)))])),
      ("branches", .map (mapOfList [
        ("includes", .seq (seqOfList [.str "*"]))]))])),
    ("rules", .seq (seqOfList [
      .map (mapOfList [
        ("type", .str "file_path_restriction"),
        ("parameters", .map (mapOfList [
          ("restricted_file_patterns",
            .seq (seqOfList (patterns.map .str)))]))])]))])

/-- Look a key up in a mapping's entries (first match, insertion order). -/
def lookupMap (k : String) : YamlMap → Option Yaml
  | .nil => none
  | .cons k' v rest => if k == k' then some v else lookupMap k rest

/-- Index into a sequence's items. -/
def nthSeq : Nat → YamlSeq → Option Yaml
  | _, .nil => none
  | 0, .cons y _ => some y
  | n + 1, .cons _ ys => nthSeq n ys

/-- Look a key up in a mapping node. -/
def getKey (k : String) : Yaml → Option Yaml
  | .map entries => lookupMap k entries
  | _ => none

/-- Index into a sequence node. -/
def getIdx (i : Nat) : Yaml → Option Yaml
  | .seq items => nthSeq i items
  | _ => none

/-- The value at path `conditions.file_paths.included`. -/
def includedOf (doc : Yaml) : Option Yaml :=
  ((getKey "conditions" doc).bind (getKey "file_paths")).bind (getKey "included")

/-- The value at path `rules[0].parameters.restricted_file_patterns`. -/
def restrictedOf (doc : Yaml) : Option Yaml :=
  (((getKey "rules" doc).bind (getIdx 0)).bind
    (getKey "parameters")).bind (getKey "restricted_file_patterns")

/-- The value at path `conditions.branches.includes`. -/
def branchesIncludesOf (doc : Yaml) : Option Yaml :=
  ((getKey "conditions" doc).bind (getKey "branches")).bind (getKey "includes")

/-- `n` spaces of indentation. -/
def spaces (n : Nat) : String :=
  String.mk (List.replicate n ' ')

/-- Scalar rendering of the YAML emitter: strings that are empty or start
with a YAML indicator character (`*` alias marker, `#` comment marker) are
single-quoted, as PyYAML does for the strings this script produces; plain
strings are emitted verbatim. -/
def quoteScalar (s : String) : String :=
  match s.data with
  | [] => "''"
  | '*' :: _ => "'" ++ s ++ "'"
  | '#' :: _ => "'" ++ s ++ "'"
  | _ => s

mutual

/-- Emit the entries of a mapping, one after the other, in the insertion
order of the entry list — the behaviour of
`yaml.dump(..., sort_keys=False)` (line 39 of the script). -/
def dumpEntries (ind : Nat) : YamlMap → List String
  | .nil => []
  | .cons k v rest => dumpEntry ind k v ++ dumpEntries ind rest

/-- Emit one `key: value` entry in block style: scalars inline, nonempty
sequences and mappings as an indented block, empty ones inline as `[]`/`\x7b\x7d`. -/
def dumpEntry (ind : Nat) (k : String) : Yaml → List String
  | .str s => [spaces ind ++ (k ++ (": " ++ quoteScalar s))]
  | .seq .nil => [spaces ind ++ (k ++ ": []")]
  | .seq (.cons i is) => (spaces ind ++ (k ++ ":")) :: dumpItems ind (.cons i is)
  | .map .nil => [spaces ind ++ (k ++ ": \x7b\x7d")]
  | .map (.cons k' v es) => (spaces ind ++ (k ++ ":")) :: dumpEntries (ind + 2) (.cons k' v es)

/-- Emit the items of a sequence, one after the other. -/
def dumpItems (ind : Nat) : YamlSeq → List String
  | .nil => []
  | .cons i is => dumpItem ind i ++ dumpItems ind is

/-- Emit one `- item` of a sequence; a mapping item puts its first entry on
the dash line and the remaining entries aligned below it. -/
def dumpItem (ind : Nat) : Yaml → List String
  | .str s => [spaces ind ++ ("- " ++ quoteScalar s)]
  | .seq items => (spaces ind ++ "-") :: dumpItems (ind + 2) items
  | .map .nil => [spaces ind ++ "- \x7b\x7d"]
  | .map (.cons k v es) =>
    match dumpEntry (ind + 2) k v with
    | [] => (spaces ind ++ "-") :: dumpEntries (ind + 2) es
    | first :: restFirst =>
      (spaces ind ++ ("- " ++ first.drop (ind + 2))) :: (restFirst ++ dumpEntries (ind + 2) es)

end

/-- Serialize a document to its lines. -/
def yamlDumpLines (doc : Yaml) : List String :=
  match doc with
  | .str s => [quoteScalar s]
  | .seq items => dumpItems 0 items
  | .map entries => dumpEntries 0 entries

/-- Serialize a document to text, the result of `yaml.dump` (which ends in a
newline). -/
def yamlDump (doc : Yaml) : String :=
  String.intercalate "\n" (yamlDumpLines doc) ++ "\n"

/-- The document text the script derives from the input file content. -/
def serializedRuleset (content : String) : String :=
  yamlDump (rulesetDoc (patternsOf (pyReadlines content)))

/-- Model of the whole script run. The argument is `some content` when
`forbidden-extensions.txt` can be opened and read, `none` when it cannot
(lines 6-7). On failure the `open` call raises and the interpreter stops
before any output is produced; on success `print` writes the YAML text plus
a final newline to standard output. -/
def runScript (file : Option String) : Except String String :=
  match file with
  | none =>
    .error "FileNotFoundError: [Errno 2] No such file or directory: 'forbidden-extensions.txt'"
  | some content => .ok (serializedRuleset content ++ "\n")

/-- The process exit status: 0 on success, 1 when the uncaught exception
terminates the interpreter. -/
def exitCodeOf (file : Option String) : Nat :=
  match runScript file with
  | .error _ => 1
  | .ok _ => 0

/-- What the script writes to standard output (the diagnostic of a failed
run goes to standard error, so standard output stays empty). -/
def stdoutOf (file : Option String) : String :=
  match runScript file with
  | .error _ => ""
  | .ok out => out

/-- True for a line of serialized output that carries a top-level mapping
key: it is nonempty and starts neither with indentation nor with a sequence
dash. -/
def isTopLine (s : String) : Bool :=
  match s.data with
  | [] => false
  | c :: _ => !(c == ' ' || c == '-')

/-- The key part of a `key: value` line. -/
def keyOf (s : String) : String :=
  String.mk (s.data.takeWhile (fun c => !(c == ':')))

/-- The top-level mapping keys of serialized output, in the order they are
rendered. -/
def topKeys (lines : List String) : List String :=
  (lines.filter isTopLine).map keyOf

/-! ### Helper lemmas about the filter loop -/

theorem stepLine_acc (acc : List String) (line : String) :
    stepLine acc line = acc ++ stepLine [] line := by
  simp only [stepLine]
  split <;> simp

theorem foldl_stepLine_acc (ls : List String) (acc : List String) :
    ls.foldl stepLine acc = acc ++ ls.foldl stepLine [] := by
  induction ls generalizing acc with
  | nil => simp
  | cons l ls ih =>
    simp only [List.foldl_cons]
    rw [ih (stepLine acc l), ih (stepLine [] l), stepLine_acc acc l, List.append_assoc]

theorem patternsOf_cons (l : String) (ls : List String) :
    patternsOf (l :: ls) = stepLine [] l ++ patternsOf ls := by
  simp only [patternsOf, List.foldl_cons]
  exact foldl_stepLine_acc ls (stepLine [] l)

theorem patternsOf_append (xs ys : List String) :
    patternsOf (xs ++ ys) = patternsOf xs ++ patternsOf ys := by
  simp only [patternsOf, List.foldl_append]
  exact foldl_stepLine_acc ys (xs.foldl stepLine [])

theorem stepLine_nil (line : String) :
    stepLine [] line = if keepLine line then ["*." ++ pyStrip line] else [] := by
  simp only [stepLine, keepLine, keepToken]
  rcases Bool.eq_false_or_eq_true
      (pyStrip line == "" || startsWithHash (pyStrip line)) with hb | hb <;>
    simp [hb]

theorem retainedOf_cons (l : String) (ls : List String) :
    retainedOf (l :: ls)
      = if keepLine l then pyStrip l :: retainedOf ls else retainedOf ls := by
  simp only [retainedOf, List.map_cons, List.filter_cons, keepLine]

/-- The loop is the composition strip-then-filter-then-prefix. -/
theorem patternsOf_eq (ls : List String) :
    patternsOf ls = (retainedOf ls).map (fun t => "*." ++ t) := by
  induction ls with
  | nil => rfl
  | cons l ls ih =>
    rw [patternsOf_cons, stepLine_nil, ih, retainedOf_cons]
    cases hk : keepLine l <;> simp

theorem retainedOf_eq_nil (ls : List String) (h : ∀ l ∈ ls, keepLine l = false) :
    retainedOf ls = [] := by
  induction ls with
  | nil => rfl
  | cons l ls ih =>
    have hl : keepLine l = false := h l (List.mem_cons_self l ls)
    rw [retainedOf_cons, hl, if_neg (by simp)]
    exact ih fun x hx => h x (List.mem_cons_of_mem l hx)

/-! ### Helper lemmas about the serialized line structure -/

theorem isTopLine_spaces2 (x : String) : isTopLine (spaces 2 ++ x) = false := rfl

theorem isTopLine_spaces4 (x : String) : isTopLine (spaces 4 ++ x) = false := rfl

theorem isTopLine_dash (x : String) : isTopLine (spaces 0 ++ ("- " ++ x)) = false := rfl

/-- Every rendered pattern item sits at indentation 4, so none of its lines
carries a top-level key. -/
theorem filter_isTopLine_strsItems (qs : List String) :
    (dumpItems 4 (seqOfList (qs.map .str))).filter isTopLine = [] := by
  induction qs with
  | nil => rfl
  | cons q qs ih =>
    show ((spaces 4 ++ ("- " ++ quoteScalar q))
        :: dumpItems 4 (seqOfList (qs.map .str))).filter isTopLine = []
    rw [List.filter_cons, isTopLine_spaces4, if_neg Bool.false_ne_true]
    exact ih

/-- A whole pattern-sequence entry rendered at indentation 4 contributes no
top-level key line. -/
theorem filter_isTopLine_patBlock (k : String) (qs : List String) :
    (dumpEntry 4 k (.seq (seqOfList (qs.map .str)))).filter isTopLine = [] := by
  cases qs with
  | nil => rfl
  | cons q qs =>
    show ((spaces 4 ++ (k ++ ":"))
        :: dumpItems 4 (seqOfList ((q :: qs).map .str))).filter isTopLine = []
    rw [List.filter_cons, isTopLine_spaces4, if_neg Bool.false_ne_true]
    exact filter_isTopLine_strsItems (q :: qs)

/-! ### Claim theorems -/

/-- C1: for every input line, the line is excluded from the pattern output
if and only if, after trimming surrounding whitespace, it is empty or its
first character is `#`; no pattern in the output corresponds to such a
line (removing the line leaves the pattern list unchanged). -/
theorem excluded_iff_blank_or_comment (line : String) (pre post : List String) :
    (keepLine line = false ↔
      (pyStrip line = "" ∨ (pyStrip line).data.head? = some '#'))
    ∧ (keepLine line = false →
      patternsOf (pre ++ line :: post) = patternsOf (pre ++ post)) := by
  constructor
  · simp [keepLine, keepToken, startsWithHash]
    try tauto
  · intro h
    rw [patternsOf_append, patternsOf_append, patternsOf_cons, stepLine_nil, h]
    simp

theorem excluded_iff_blank_or_comment_witness :
    keepLine " # images " = false
    ∧ patternsOf ["exe", " # images ", "bat"] = patternsOf ["exe", "bat"] := by
  refine ⟨by decide, ?_⟩
  exact (excluded_iff_blank_or_comment " # images " ["exe"] ["bat"]).2 (by decide)

/-- C2: for every retained (non-blank, non-comment) input line, the output
pattern sequence contains exactly `"*." ++ trimmed_line` at the same
relative position the line has among retained lines — order-preserving and
one-to-one — and duplicate input tokens yield duplicate patterns. -/
theorem patterns_positional (lines : List String) (i : Nat) :
    (patternsOf lines).length = (retainedOf lines).length
    ∧ (patternsOf lines)[i]? = ((retainedOf lines)[i]?).map (fun t => "*." ++ t)
    ∧ patternsOf ["exe", "exe"] = ["*.exe", "*.exe"] := by
  refine ⟨?_, ?_, by decide⟩ <;> rw [patternsOf_eq]
  · exact List.length_map _ _
  · exact List.getElem?_map _ _ _

/-- C3: in the produced document, the sequence at
`conditions.file_paths.included` and the sequence at
`rules[0].parameters.restricted_file_patterns` are identical in content and
order — both are the injected pattern list. -/
theorem two_locations_identical (ps : List String) :
    includedOf (rulesetDoc ps) = restrictedOf (rulesetDoc ps)
    ∧ includedOf (rulesetDoc ps) = some (.seq (seqOfList (ps.map .str))) :=
  ⟨rfl, rfl⟩

/-- C4: the generator is a pure, deterministic function of the input file's
byte content — two runs on byte-for-byte identical input give byte-for-byte
identical serialized output. -/
theorem output_deterministic (c₁ c₂ : String) (h : c₁ = c₂) :
    runScript (some c₁) = runScript (some c₂) := by rw [h]

theorem output_deterministic_witness :
    runScript (some "exe\nbat\n") = runScript (some "exe\nbat\n") :=
  output_deterministic "exe\nbat\n" "exe\nbat\n" rfl

/-- C5: on an input whose every line is blank or a comment, the generator
succeeds and emits a complete document with an empty pattern sequence at
both `conditions.file_paths.included` and
`rules[0].parameters.restricted_file_patterns`. -/
theorem blank_or_comment_only_input (content : String)
    (h : ∀ l ∈ pyReadlines content, keepLine l = false) :
    patternsOf (pyReadlines content) = []
    ∧ includedOf (rulesetDoc (patternsOf (pyReadlines content))) = some (.seq .nil)
    ∧ restrictedOf (rulesetDoc (patternsOf (pyReadlines content))) = some (.seq .nil)
    ∧ ∃ out, runScript (some content) = .ok out := by
  have hp : patternsOf (pyReadlines content) = [] := by
    rw [patternsOf_eq, retainedOf_eq_nil _ h]
    rfl
  rw [hp]
  exact ⟨rfl, rfl, rfl, _, rfl⟩

theorem blank_or_comment_only_input_witness :
    patternsOf (pyReadlines "# images\n\n   \n") = []
    ∧ includedOf (rulesetDoc (patternsOf (pyReadlines "# images\n\n   \n")))
        = some (.seq .nil)
    ∧ restrictedOf (rulesetDoc (patternsOf (pyReadlines "# images\n\n   \n")))
        = some (.seq .nil)
    ∧ ∃ out, runScript (some "# images\n\n   \n") = .ok out :=
  blank_or_comment_only_input "# images\n\n   \n" (by decide)

/-- C6: on the concrete input with lines `# images`, `exe`, `bat`, an empty
line, and `tar.gz`, the document has pattern sequence
`["*.exe", "*.bat", "*.tar.gz"]` in both locations, and the constant fields
`name`, `target`, `enforcement` and `conditions.branches.includes` have
their fixed values. -/
theorem concrete_scenario :
    patternsOf (pyReadlines "# images\nexe\nbat\n\ntar.gz\n")
      = ["*.exe", "*.bat", "*.tar.gz"]
    ∧ getKey "name" (rulesetDoc (patternsOf (pyReadlines "# images\nexe\nbat\n\ntar.gz\n")))
        = some (.str "Block Forbidden File Types")
    ∧ getKey "target" (rulesetDoc (patternsOf (pyReadlines "# images\nexe\nbat\n\ntar.gz\n")))
        = some (.str "push")
    ∧ getKey "enforcement" (rulesetDoc (patternsOf (pyReadlines "# images\nexe\nbat\n\ntar.gz\n")))
        = some (.str "active")
    ∧ branchesIncludesOf (rulesetDoc (patternsOf (pyReadlines "# images\nexe\nbat\n\ntar.gz\n")))
        = some (.seq (seqOfList [.str "*"]))
    ∧ includedOf (rulesetDoc (patternsOf (pyReadlines "# images\nexe\nbat\n\ntar.gz\n")))
        = some (.seq (seqOfList [.str "*.exe", .str "*.bat", .str "*.tar.gz"]))
    ∧ restrictedOf (rulesetDoc (patternsOf (pyReadlines "# images\nexe\nbat\n\ntar.gz\n")))
        = some (.seq (seqOfList [.str "*.exe", .str "*.bat", .str "*.tar.gz"])) :=
  ⟨rfl, rfl, rfl, rfl, rfl, rfl, rfl⟩

/-- C7: if the input file cannot be opened, the process exits with a
non-zero status, the diagnostic names the failed file operation, and
nothing is written to standard output; on every readable input the script
succeeds — reading the file is the only failure mode. -/
theorem missing_file_fails_no_output :
    runScript none
      = .error "FileNotFoundError: [Errno 2] No such file or directory: 'forbidden-extensions.txt'"
    ∧ exitCodeOf none = 1
    ∧ stdoutOf none = ""
    ∧ (∀ content, ∃ doc, runScript (some content) = .ok doc)
    ∧ (∀ content, exitCodeOf (some content) = 0) :=
  ⟨rfl, rfl, rfl, fun _ => ⟨_, rfl⟩, fun _ => rfl⟩

/-- C9: a `#` after the first character of a trimmed line does not start a
comment — such a line is retained verbatim as a token, so `exe # note`
yields the pattern `*.exe # note`. -/
theorem inline_hash_not_comment (line : String)
    (h1 : pyStrip line ≠ "") (h2 : (pyStrip line).data.head? ≠ some '#') :
    keepLine line = true ∧ patternsOf [line] = ["*." ++ pyStrip line] := by
  have hk : keepLine line = true := by
    simp [keepLine, keepToken, startsWithHash, h1, h2]
  refine ⟨hk, ?_⟩
  rw [patternsOf_cons, stepLine_nil, hk]
  simp [patternsOf]

theorem inline_hash_not_comment_witness :
    keepLine "exe # note" = true
    ∧ patternsOf ["exe # note"] = ["*." ++ pyStrip "exe # note"] :=
  inline_hash_not_comment "exe # note" (by decide) (by decide)

/-- C10: the output is invariant under the line-ending convention and
per-line surrounding whitespace — inputs whose lines agree after trimming
(which removes a trailing `\r` of a CRLF ending) produce identical
documents. -/
theorem strip_invariant_output (c₁ c₂ : String)
    (h : (pyReadlines c₁).map pyStrip = (pyReadlines c₂).map pyStrip) :
    runScript (some c₁) = runScript (some c₂) := by
  have hp : patternsOf (pyReadlines c₁) = patternsOf (pyReadlines c₂) := by
    rw [patternsOf_eq, patternsOf_eq]
    unfold retainedOf
    rw [h]
  simp only [runScript, serializedRuleset, hp]

theorem strip_invariant_output_witness :
    runScript (some "exe\r\nbat\r\n") = runScript (some "  exe\nbat  \n") :=
  strip_invariant_output "exe\r\nbat\r\n" "  exe\nbat  \n" (by decide)

/-- C8: serialization renders the document's keys in the authored insertion
order — `name`, `target`, `enforcement`, `conditions`, `rules` — not
alphabetized, and the serialized text is what the script writes to standard
output. -/
theorem serialized_key_order (ps : List String) (content : String) :
    topKeys (yamlDumpLines (rulesetDoc ps))
      = ["name", "target", "enforcement", "conditions", "rules"]
    ∧ topKeys (yamlDumpLines (rulesetDoc ps))
      ≠ ["conditions", "enforcement", "name", "rules", "target"]
    ∧ stdoutOf (some content)
      = yamlDump (rulesetDoc (patternsOf (pyReadlines content))) ++ "\n" := by
  have hlines : yamlDumpLines (rulesetDoc ps)
      = "name: Block Forbidden File Types"
        :: "target: push"
        :: "enforcement: active"
        :: "conditions:"
        :: "  file_paths:"
        :: (((dumpEntry 4 "included" (Yaml.seq (seqOfList (List.map Yaml.str ps))) ++ [])
              ++ ["  branches:", "    includes:", "    - '*'"])
             ++ ("rules:"
                 :: "- type: file_path_restriction"
                 :: "  parameters:"
                 :: ((((dumpEntry 4 "restricted_file_patterns"
                        (Yaml.seq (seqOfList (List.map Yaml.str ps))) ++ []) ++ []) ++ []) ++ []))) :=
    rfl
  have t1 : isTopLine "name: Block Forbidden File Types" = true := rfl
  have t2 : isTopLine "target: push" = true := rfl
  have t3 : isTopLine "enforcement: active" = true := rfl
  have t4 : isTopLine "conditions:" = true := rfl
  have t5 : isTopLine "  file_paths:" = false := rfl
  have t6 : isTopLine "  branches:" = false := rfl
  have t7 : isTopLine "    includes:" = false := rfl
  have t8 : isTopLine "    - '*'" = false := rfl
  have t9 : isTopLine "rules:" = true := rfl
  have t10 : isTopLine "- type: file_path_restriction" = false := rfl
  have t11 : isTopLine "  parameters:" = false := rfl
  have k1 : keyOf "name: Block Forbidden File Types" = "name" := rfl
  have k2 : keyOf "target: push" = "target" := rfl
  have k3 : keyOf "enforcement: active" = "enforcement" := rfl
  have k4 : keyOf "conditions:" = "conditions" := rfl
  have k5 : keyOf "rules:" = "rules" := rfl
  have h1 : topKeys (yamlDumpLines (rulesetDoc ps))
      = ["name", "target", "enforcement", "conditions", "rules"] := by
    rw [topKeys, hlines]
    simp [List.filter_cons, List.filter_append, filter_isTopLine_patBlock,
      t1, t2, t3, t4, t5, t6, t7, t8, t9, t10, t11, k1, k2, k3, k4, k5]
  exact ⟨h1, by rw [h1]; decide, rfl⟩

theorem serialized_key_order_witness :
    topKeys (yamlDumpLines (rulesetDoc ["*.exe"]))
      = ["name", "target", "enforcement", "conditions", "rules"]
    ∧ topKeys (yamlDumpLines (rulesetDoc ["*.exe"]))
      ≠ ["conditions", "enforcement", "name", "rules", "target"]
    ∧ stdoutOf (some "exe\n")
      = yamlDump (rulesetDoc (patternsOf (pyReadlines "exe\n"))) ++ "\n" :=
  serialized_key_order ["*.exe"] "exe\n"

end RulesetGen
